import Mathlib

/-
  Verification development for the nervusdb repository.

  The visible repository is a Python binding layer plus its behavioral test
  suite; the engine the bindings call into (graph store, transaction
  manager, query executor, vector index) is not part of the visible source.
  Definitions below that embed that engine are therefore modelled from the
  specification (spec.md) and are each marked "Modelled from the spec".
  Definitions for the legacy binding
  (src/_legacy_v1_archive/bindings/python/nervusdb-py/python/nervusdb/__init__.py)
  are translated directly from that source file.
-/

namespace NervusDB

/-! ## Value model (spec section 3) -/

mutual

/-- Modelled from the spec: the engine's `Value` tagged union
`Null | Bool | Integer | Float | String | List | Map | NodeRef | RelationshipRef`
(spec section 3, "Value").  Floats are modelled as rationals.  The nested
list and map payloads use the mutually defined `ValueList` / `ValueMap`
types (isomorphic to `List Value` and `List (String × Value)`). -/
inductive Value where
  | null
  | bool (b : Bool)
  | int (i : Int)
  | float (q : ℚ)
  | str (s : String)
  | list (xs : ValueList)
  | map (m : ValueMap)
  | nodeRef (id : Nat)
  | relRef (id : Nat)
deriving DecidableEq

/-- A list of `Value`s (payload of `Value.list`). -/
inductive ValueList where
  | nil
  | cons (hd : Value) (tl : ValueList)
deriving DecidableEq

/-- A string-keyed map of `Value`s (payload of `Value.map`). -/
inductive ValueMap where
  | nil
  | cons (key : String) (val : Value) (tl : ValueMap)
deriving DecidableEq

end

/-- Convert an ordinary list of values into a `ValueList`. -/
def ValueList.ofList : List Value → ValueList
  | [] => .nil
  | v :: vs => .cons v (ValueList.ofList vs)

/-! ## Error taxonomy (spec section 7) -/

/-- Modelled from the spec: the error taxonomy of section 7 — SyntaxError,
ExecutionError, StorageError, CompatibilityError, one flat tagged union,
each carrying a human-readable message. -/
inductive Err where
  | parseError (msg : String)
  | execError (msg : String)
  | storageError (msg : String)
  | compatError (msg : String)
deriving DecidableEq

/-- The "already finished" condition raised by any operation on a terminal
transaction (spec section 4.4; the test asserts the message contains
"already finished"). -/
def txnFinished : Err := .storageError "transaction already finished"

/-- The storage-category error raised by any operation on a closed
database (spec sections 4.1 and 7; the test asserts the message contains
"closed"). -/
def dbClosed : Err := .storageError "database is closed"

/-! ## Null propagation in expressions (claim C6, spec section 3) -/

/-- Modelled from the spec: the `+` operator on values.  "Arithmetic on
`Null` propagates `Null` (never throws)" — a `Null` operand yields `Null`;
numeric operands add (integers coerce to float when mixed); strings
concatenate; any other combination is an execution-category error. -/
def addValues : Value → Value → Except Err Value
  | .null, _ => .ok .null
  | _, .null => .ok .null
  | .int a, .int b => .ok (.int (a + b))
  | .float a, .float b => .ok (.float (a + b))
  | .int a, .float b => .ok (.float ((a : ℚ) + b))
  | .float a, .int b => .ok (.float (a + (b : ℚ)))
  | .str a, .str b => .ok (.str (a ++ b))
  | _, _ => .error (.execError "type mismatch in +")

/-- Modelled from the spec: the `=` comparison with three-valued logic —
a `Null` operand yields `Null` (in particular `null = null` is `null`),
otherwise structural equality as a boolean.  Comparison never raises. -/
def eqValues : Value → Value → Value
  | .null, _ => .null
  | _, .null => .null
  | a, b => .bool (decide (a = b))

/-- Modelled from the spec: a fragment of the expression language — value
literals, `+`, and `=` — evaluated bottom-up, errors propagating. -/
inductive Expr where
  | lit (v : Value)
  | add (a b : Expr)
  | eq (a b : Expr)

/-- Modelled from the spec: expression evaluation for `Expr`. -/
def evalExpr : Expr → Except Err Value
  | .lit v => .ok v
  | .add a b => do addValues (← evalExpr a) (← evalExpr b)
  | .eq a b => do pure (eqValues (← evalExpr a) (← evalExpr b))

/-! ## Rows and UNION (claim C8, spec section 4.6) -/

/-- A projected result row: the tuple of values of all projected columns. -/
abbrev Row := List Value

/-- Modelled from the spec: `UNION` deduplicates the concatenation of both
sides' result rows by structural equality across all projected columns. -/
def unionRows (a b : List Row) : List Row := (a ++ b).dedup

/-- Modelled from the spec: `UNION ALL` keeps the concatenation as is. -/
def unionAllRows (a b : List Row) : List Row := a ++ b

/-! ## Graph store state (spec sections 3 and 4.2) -/

/-- Modelled from the spec: a node — id, label set (order-irrelevant
membership), and a unique-keyed property map. -/
structure Node where
  id : Nat
  labels : List String
  props : List (String × Value)
deriving DecidableEq

/-- Modelled from the spec: a directed edge `(start, type, end)` with a
property map. -/
structure Edge where
  id : Nat
  src : Nat
  relType : String
  dst : Nat
  props : List (String × Value)
deriving DecidableEq

/-- Modelled from the spec: the committed graph-store state — node records,
edge records, the vector sub-index (`NodeId -> fixed-length float vector`,
kept in insertion order), and the monotone id allocator. -/
structure GraphState where
  nodes : List Node
  edges : List Edge
  vectors : List (Nat × List ℚ)
  nextId : Nat
deriving DecidableEq

/-- The empty store a freshly created database starts from. -/
def initialState : GraphState := { nodes := [], edges := [], vectors := [], nextId := 1 }

/-- A node pattern as written in `CREATE`/`MERGE`/`MATCH`: labels plus an
inline property-equality map. -/
structure NodePat where
  labels : List String
  props : List (String × Value)
deriving DecidableEq

/-- Does a stored property map satisfy a pattern's property-equality map? -/
def propsMatch (props pat : List (String × Value)) : Bool :=
  pat.all (fun kv => decide (props.lookup kv.1 = some kv.2))

/-- Modelled from the spec: a node matches a pattern when it carries every
pattern label and every pattern property with an equal value. -/
def nodeMatches (n : Node) (p : NodePat) : Bool :=
  p.labels.all (fun l => n.labels.contains l) && propsMatch n.props p.props

/-- Modelled from the spec: an edge matches a `(start, type, end)` triple. -/
def edgeMatches (e : Edge) (a : Nat) (t : String) (b : Nat) : Bool :=
  decide (e.src = a) && decide (e.relType = t) && decide (e.dst = b)

/-- Modelled from the spec: `CREATE` a node — always adds a new record with
a fresh monotone id. -/
def createNode (g : GraphState) (labels : List String) (props : List (String × Value)) :
    GraphState :=
  { g with nodes := g.nodes ++ [{ id := g.nextId, labels := labels, props := props }],
           nextId := g.nextId + 1 }

/-- Modelled from the spec: `CREATE` an edge — `CREATE` always adds a new
parallel edge. -/
def createEdge (g : GraphState) (a : Nat) (t : String) (b : Nat) : GraphState :=
  { g with edges := g.edges ++ [{ id := g.nextId, src := a, relType := t, dst := b, props := [] }],
           nextId := g.nextId + 1 }

/-- Modelled from the spec (section 4.6): `MERGE` on a node pattern performs
a match; if zero rows match it performs the equivalent `CREATE`, if one or
more match it creates nothing. -/
def mergeNode (g : GraphState) (p : NodePat) : GraphState :=
  if g.nodes.any (fun n => nodeMatches n p) then g else createNode g p.labels p.props

/-- Modelled from the spec (section 4.6): `MERGE` on a relationship between
fixed endpoints — creates the edge only when no `(start, type, end)` match
exists. -/
def mergeEdge (g : GraphState) (a : Nat) (t : String) (b : Nat) : GraphState :=
  if g.edges.any (fun e => edgeMatches e a t b) then g else createEdge g a t b

/-- Insert-or-overwrite a node's vector in the vector sub-index
(`set_vector` attaches or overwrites an embedding, spec section 4.3). -/
def upsertVec : List (Nat × List ℚ) → Nat → List ℚ → List (Nat × List ℚ)
  | [], nid, v => [(nid, v)]
  | (m, w) :: rest, nid, v =>
      if m = nid then (m, v) :: rest else (m, w) :: upsertVec rest nid v

/-- Modelled from the spec: `set_vector(nodeId, vector)`. -/
def GraphState.setVec (g : GraphState) (nid : Nat) (v : List ℚ) : GraphState :=
  { g with vectors := upsertVec g.vectors nid v }

/-- Modelled from the spec: the write operations a statement can stage. -/
inductive WriteOp where
  | createNode (labels : List String) (props : List (String × Value))
  | createEdge (src : Nat) (relType : String) (dst : Nat)
  | mergeNode (pat : NodePat)
  | mergeEdge (src : Nat) (relType : String) (dst : Nat)
  | setVec (nid : Nat) (vec : List ℚ)

/-- Apply one staged write operation to a graph state. -/
def applyWrite (g : GraphState) : WriteOp → GraphState
  | .createNode labels props => createNode g labels props
  | .createEdge a t b => createEdge g a t b
  | .mergeNode p => mergeNode g p
  | .mergeEdge a t b => mergeEdge g a t b
  | .setVec nid v => g.setVec nid v

/-- The cumulative effect of a sequence of writes. -/
def applyWrites (ws : List WriteOp) (g : GraphState) : GraphState := ws.foldl applyWrite g

/-! ## Vector search (claim C4, spec section 4.3) -/

/-- The squared Euclidean distance between two vectors; the Euclidean
distance itself is its square root, and ordering by one is ordering by the
other. -/
def sqDist (u v : List ℚ) : ℚ := (List.zipWith (fun a b => (a - b) ^ 2) u v).sum

/-- The order in which search results are returned: ascending by the
reported distance. -/
def distLE (a b : Nat × ℚ) : Prop := a.2 ≤ b.2

instance : DecidableRel distLE := fun a b => inferInstanceAs (Decidable (a.2 ≤ b.2))

instance : IsTotal (Nat × ℚ) distLE := ⟨fun a b => le_total a.2 b.2⟩

instance : IsTrans (Nat × ℚ) distLE := ⟨fun _ _ _ h1 h2 => le_trans h1 h2⟩

/-- Modelled from the spec: k-NN over the vector sub-index — every stored
vector is scored by its distance to the query, results are sorted by
ascending distance (ties deterministically, by insertion order via a stable
sort) and the first `k` are returned; if fewer than `k` vectors exist all
of them are returned.  Each result pair carries the squared Euclidean
distance; the Euclidean distance is its square root. -/
def knnSearch (vecs : List (Nat × List ℚ)) (q : List ℚ) (k : Nat) : List (Nat × ℚ) :=
  ((vecs.map (fun p => (p.1, sqDist q p.2))).insertionSort distLE).take k

/-! ## Database handle and transactions (claims C1, C2, C5) -/

/-- Modelled from the spec: a database handle — the committed graph state
plus the closed flag (`close()` invalidates the handle). -/
structure DB where
  state : GraphState
  closed : Bool
deriving DecidableEq

/-- Modelled from the spec: `close()` — always succeeds (it returns a
handle, not an error), marks the handle closed, and leaves the committed
state persisted. -/
def DB.close (db : DB) : DB := { db with closed := true }

/-- Modelled from the spec: reopening a database path reads back the
persisted committed state (catalog, graph data and vector index survive
close/reopen, spec section 3 "Lifecycles" and section 4.3). -/
def DB.reopen (db : DB) : DB := { state := db.state, closed := false }

/-- Modelled from the spec: a read query (here: a node-pattern match)
against the latest committed snapshot; fails fast with a storage-category
error on a closed handle. -/
def DB.query (db : DB) (p : NodePat) : Except Err (List Node) :=
  if db.closed then .error dbClosed
  else .ok (db.state.nodes.filter (fun n => nodeMatches n p))

/-- Modelled from the spec: `execute_write` — an implicit single-statement
transaction returning an affected-count signal; storage error when closed. -/
def DB.execute_write (db : DB) (w : WriteOp) : Except Err (DB × Nat) :=
  if db.closed then .error dbClosed
  else .ok ({ db with state := applyWrite db.state w }, 1)

/-- Modelled from the spec: `search_vector(q, k)`; storage error when
closed. -/
def DB.search_vector (db : DB) (q : List ℚ) (k : Nat) : Except Err (List (Nat × ℚ)) :=
  if db.closed then .error dbClosed
  else .ok (knnSearch db.state.vectors q k)

/-- Modelled from the spec (section 4.4): the per-transaction state
machine `Active -> {Committed | RolledBack | Aborted}`. -/
inductive TxnStatus where
  | active
  | committed
  | rolledBack
  | aborted
deriving DecidableEq

/-- Modelled from the spec: a write transaction — its state-machine status
and the staged view of the graph (the base snapshot plus staged effects). -/
structure WriteTxn where
  status : TxnStatus
  staged : GraphState
deriving DecidableEq

/-- Modelled from the spec: `begin_write()` — a fresh Active transaction
whose staged view starts from the committed snapshot. -/
def DB.begin_write (db : DB) : Except Err WriteTxn :=
  if db.closed then .error dbClosed
  else .ok { status := .active, staged := db.state }

/-- Modelled from the spec: a write statement inside a transaction stages
its effects; on a terminal transaction it fails with the "already
finished" condition. -/
def WriteTxn.query (t : WriteTxn) (w : WriteOp) : Except Err WriteTxn :=
  if t.status = .active then .ok { t with staged := applyWrite t.staged w }
  else .error txnFinished

/-- Modelled from the spec: `set_vector` inside a transaction; "already
finished" on a terminal transaction. -/
def WriteTxn.set_vector (t : WriteTxn) (nid : Nat) (v : List ℚ) : Except Err WriteTxn :=
  if t.status = .active then .ok { t with staged := t.staged.setVec nid v }
  else .error txnFinished

/-- Modelled from the spec: `commit()` atomically installs the staged view
as the committed state and moves the transaction to the Committed terminal
state; on a terminal transaction it fails with "already finished". -/
def WriteTxn.commit (t : WriteTxn) (db : DB) : Except Err (DB × WriteTxn) :=
  if t.status = .active then
    .ok ({ db with state := t.staged }, { t with status := .committed })
  else .error txnFinished

/-- Modelled from the spec: `rollback()` discards all staged effects (the
database keeps its committed state) and moves the transaction to the
RolledBack terminal state; on a terminal transaction it fails with
"already finished". -/
def WriteTxn.rollback (t : WriteTxn) (db : DB) : Except Err (DB × WriteTxn) :=
  if t.status = .active then .ok (db, { t with status := .rolledBack })
  else .error txnFinished

/-! ## Implicit GROUP BY (claim C7, spec section 4.6) -/

/-- A variable binding environment: the row shape the executor's pipeline
stages pass along. -/
abbrev Env := List (String × Value)

/-- Modelled from the spec: the aggregate functions
`count, sum, avg, min, max, collect`. -/
inductive AggFn where
  | count
  | sum
  | avg
  | min
  | max
  | collect
deriving DecidableEq

/-- Numeric view of a value (integers coerce to rationals). -/
def ratOfValue : Value → Option ℚ
  | .int i => some (i : ℚ)
  | .float q => some q
  | _ => none

/-- The numeric inputs of a numeric aggregate (non-numeric and null values
are skipped, as Cypher aggregates skip nulls). -/
def numsOf (vs : List Value) : List ℚ := vs.filterMap ratOfValue

/-- Modelled from the spec: apply one aggregate function to the list of its
argument's values over a group. -/
def applyAgg : AggFn → List Value → Value
  | .count, vs => .int ((vs.filter (fun v => decide (v ≠ .null))).length : Int)
  | .sum, vs => .float (numsOf vs).sum
  | .avg, vs =>
      match numsOf vs with
      | [] => .null
      | x :: xs => .float ((x :: xs).sum / ((x :: xs).length : ℚ))
  | .min, vs =>
      match numsOf vs with
      | [] => .null
      | x :: xs => .float (xs.foldl Min.min x)
  | .max, vs =>
      match numsOf vs with
      | [] => .null
      | x :: xs => .float (xs.foldl Max.max x)
  | .collect, vs => .list (ValueList.ofList vs)

/-- A projection-list item: either a plain (non-aggregate) expression or an
aggregate call, each with its output column name.  Expressions are embedded
as evaluation functions on the binding environment. -/
inductive ProjItem where
  | expr (name : String) (f : Env → Value)
  | agg (name : String) (fn : AggFn) (dedupArg : Bool) (arg : Env → Value)

/-- The grouping key of an input row: the tuple of values of every
non-aggregate expression in the projection list, in list order. -/
def keyOf : List ProjItem → Env → List Value
  | [], _ => []
  | .expr _ f :: rest, env => f env :: keyOf rest env
  | .agg _ _ _ _ :: rest, env => keyOf rest env

/-- The argument list fed to an aggregate, after the optional `DISTINCT`. -/
def aggInput (dedupArg : Bool) (vs : List Value) : List Value :=
  if dedupArg then vs.dedup else vs

/-- Build one output row for one group: plain expressions take their value
from the group key, aggregates are computed over the whole group. -/
def outRow : List ProjItem → List Value → List Env → List (String × Value)
  | [], _, _ => []
  | .expr n _ :: rest, kv :: kr, grp => (n, kv) :: outRow rest kr grp
  | .expr n _ :: rest, [], grp => (n, .null) :: outRow rest [] grp
  | .agg n fn d f :: rest, kr, grp =>
      (n, applyAgg fn (aggInput d (grp.map f))) :: outRow rest kr grp

/-- Modelled from the spec: the implicit GROUP BY of section 4.6 — when a
projection list mixes aggregates with plain expressions, the input rows are
grouped by the tuple of all plain expressions' values (one output row per
distinct tuple, in order of first appearance), each aggregate computed over
its group. -/
def groupProject (items : List ProjItem) (rows : List Env) : List (List (String × Value)) :=
  ((rows.map (keyOf items)).dedup).map
    (fun k => outRow items k (rows.filter (fun r => decide (keyOf items r = k))))

/-- Read the grouping key back off an output row: one produced cell per
projection item, the plain-expression cells in order. -/
def rowKey : List ProjItem → List (String × Value) → List Value
  | [], _ => []
  | .expr _ _ :: rest, c :: cs => c.2 :: rowKey rest cs
  | .expr _ _ :: rest, [] => .null :: rowKey rest []
  | .agg _ _ _ _ :: rest, _ :: cs => rowKey rest cs
  | .agg _ _ _ _ :: rest, [] => rowKey rest []

/-! ## Legacy binding: row materialization (claims C9 and C10), from
src/_legacy_v1_archive/bindings/python/nervusdb-py/python/nervusdb/__init__.py -/

/-- The `ValueType` enum consumed by `_row_from_statement`.  The binding
handles NULL, TEXT, FLOAT, BOOL, NODE, RELATIONSHIP explicitly; every other
variant (integer, list, map values) falls into its `else` branch. -/
inductive ValueType where
  | NULL
  | TEXT
  | FLOAT
  | BOOL
  | NODE
  | RELATIONSHIP
  | INTEGER
  | LIST
  | MAP
deriving DecidableEq

/-- A decoded Python cell value as produced by `_row_from_statement`. -/
inductive PyVal where
  | none
  | text (s : String)
  | double (q : ℚ)
  | boolean (b : Bool)
  | nodeId (n : Int)
  | relationship (r : Nat)
deriving DecidableEq

/-- The column accessors of the prepared `Statement` object the legacy
binding reads from (external collaborator; its accessors are opaque total
functions here). -/
structure Statement where
  column_count : Nat
  column_name : Nat → Option String
  column_type : Nat → ValueType
  column_text : Nat → String
  column_double : Nat → ℚ
  column_bool : Nat → Bool
  column_node_id : Nat → Int
  column_relationship : Nat → Nat

/-- The key expression `stmt.column_name(i) or "col" + str(i)`: Python `or`
falls through to the
synthesized name on `None` and on the falsy empty string. -/
def colName (stmt : Statement) (i : Nat) : String :=
  match stmt.column_name i with
  | some s => if s = "" then "col" ++ toString i else s
  | none => "col" ++ toString i

/-- The per-column decoding chain of `_row_from_statement`: the six handled
`ValueType`s decode through their accessor, everything else takes the
`else` branch and decodes to `None`. -/
def decodeCell (stmt : Statement) (i : Nat) : PyVal :=
  match stmt.column_type i with
  | .NULL => .none
  | .TEXT => .text (stmt.column_text i)
  | .FLOAT => .double (stmt.column_double i)
  | .BOOL => .boolean (stmt.column_bool i)
  | .NODE => .nodeId (stmt.column_node_id i)
  | .RELATIONSHIP => .relationship (stmt.column_relationship i)
  | _ => .none

/-- Python dict assignment `out[name] = v`: replace the value in place if
the key exists, else append the new entry. -/
def dictInsert : List (String × PyVal) → String → PyVal → List (String × PyVal)
  | [], k, v => [(k, v)]
  | (k0, v0) :: rest, k, v =>
      if k0 = k then (k0, v) :: rest else (k0, v0) :: dictInsert rest k v

/-- The loop of `_row_from_statement`:
`for i in range(count): out[name_i] = decode_i`. -/
def row_from_statement (stmt : Statement) : List (String × PyVal) :=
  (List.range stmt.column_count).foldl
    (fun out i => dictInsert out (colName stmt i) (decodeCell stmt i)) []

/-- The mutable statement handle behind `StatementRows`, instrumented with
call counters: `pending` is the stream of remaining rows, `stepCalls` and
`finalizeCalls` count the invocations of `step()` and `finalize()`. -/
structure Stmt where
  pending : List (List (String × PyVal))
  stepCalls : Nat
  finalizeCalls : Nat
deriving DecidableEq

/-- The call `stmt.step()`: advance the cursor; `True` iff a row was produced. -/
def Stmt.step : Stmt → Bool × Stmt
  | { pending := [], stepCalls := s, finalizeCalls := f } =>
      (false, { pending := [], stepCalls := s + 1, finalizeCalls := f })
  | { pending := _ :: rs, stepCalls := s, finalizeCalls := f } =>
      (true, { pending := rs, stepCalls := s + 1, finalizeCalls := f })

/-- The call `stmt.finalize()`. -/
def Stmt.finalize (st : Stmt) : Stmt := { st with finalizeCalls := st.finalizeCalls + 1 }

/-- The `StatementRows` iterator: the wrapped statement and the `_done`
flag. -/
structure StatementRows where
  stmt : Stmt
  done : Bool
deriving DecidableEq

/-- The method `StatementRows.__next__`: if `_done`, raise StopIteration (return no
row, touch nothing); otherwise `step()`; on `False` set `_done`, call
`finalize()` once and raise StopIteration; on `True` return the
materialized current row. -/
def StatementRows.next (it : StatementRows) : Option (List (String × PyVal)) × StatementRows :=
  if it.done then (Option.none, it)
  else
    match it.stmt.step with
    | (false, st) => (Option.none, { stmt := st.finalize, done := true })
    | (true, st) => (it.stmt.pending.head?, { stmt := st, done := false })

/-- Iterate `__next__` a number of times, keeping only the iterator state. -/
def iterNext : StatementRows → Nat → StatementRows
  | it, 0 => it
  | it, n + 1 => iterNext (it.next).2 n

/-! ## Witness fixtures: concrete inputs used by the witness theorems -/

/-- A concrete two-column statement: column 0 is a named integer column
(unhandled by the decoder), column 1 an unnamed text column. -/
def stmtW : Statement where
  column_count := 2
  column_name := fun i => if i = 0 then some "a" else Option.none
  column_type := fun i => if i = 0 then .INTEGER else .TEXT
  column_text := fun _ => "t"
  column_double := fun _ => 0
  column_bool := fun _ => false
  column_node_id := fun _ => 0
  column_relationship := fun _ => 0

/-- A concrete open database holding the spec's three-vector scenario:
vectors `[1,0,0]`, `[0,1,0]`, `[0.9,0.1,0]` on nodes 1, 2, 3. -/
def dbVec : DB where
  state :=
    { nodes := [], edges := [],
      vectors := [(1, [1, 0, 0]), (2, [0, 1, 0]), (3, [9/10, 1/10, 0])],
      nextId := 4 }
  closed := false

/-- A concrete already-exhausted iterator. -/
def itDone : StatementRows :=
  { stmt := { pending := [], stepCalls := 3, finalizeCalls := 1 }, done := true }

/-- A concrete not-yet-done iterator whose statement has no rows left. -/
def itEmpty : StatementRows :=
  { stmt := { pending := [], stepCalls := 2, finalizeCalls := 0 }, done := false }

/-! ## Helper lemmas for MERGE idempotence -/

/-- In a property map with unique keys, looking a key up finds exactly the
value stored with it. -/
lemma lookup_self_of_nodup_keys :
    ∀ (props : List (String × Value)) (k : String) (v : Value),
      (props.map Prod.fst).Nodup → (k, v) ∈ props → props.lookup k = some v := by
  intro props
  induction props with
  | nil => intro k v _ h; cases h
  | cons kv rest ih =>
      intro k v hnd hmem
      obtain ⟨k0, v0⟩ := kv
      simp only [List.map_cons, List.nodup_cons] at hnd
      rcases List.mem_cons.mp hmem with heq | hrest
      · obtain ⟨rfl, rfl⟩ := Prod.mk.injEq .. ▸ heq
        simp [List.lookup]
      · have hne : k ≠ k0 := by
          intro h
          subst h
          exact hnd.1 (List.mem_map.mpr ⟨(k, v), hrest, rfl⟩)
        have hbeq : (k == k0) = false := beq_eq_false_iff_ne.mpr hne
        simp [List.lookup, hbeq, ih k v hnd.2 hrest]

/-- A unique-keyed property map satisfies itself as a property pattern. -/
lemma propsMatch_self (props : List (String × Value))
    (h : (props.map Prod.fst).Nodup) : propsMatch props props = true := by
  simp only [propsMatch, List.all_eq_true, decide_eq_true_eq]
  intro kv hkv
  exact lookup_self_of_nodup_keys props kv.1 kv.2 h hkv

/-- The node `MERGE` creates from a pattern matches that pattern. -/
lemma nodeMatches_create (p : NodePat) (h : (p.props.map Prod.fst).Nodup) (nid : Nat) :
    nodeMatches { id := nid, labels := p.labels, props := p.props } p = true := by
  simp only [nodeMatches, Bool.and_eq_true]
  refine ⟨?_, propsMatch_self p.props h⟩
  simp [List.all_eq_true]

/-- The edge `MERGE` creates from a `(start, type, end)` triple matches it. -/
lemma edgeMatches_create (a : Nat) (t : String) (b : Nat) (eid : Nat) :
    edgeMatches { id := eid, src := a, relType := t, dst := b, props := [] } a t b = true := by
  simp [edgeMatches]

/-- A node `MERGE` with a match present changes nothing. -/
lemma mergeNode_of_any (g : GraphState) (p : NodePat)
    (h : g.nodes.any (fun n => nodeMatches n p) = true) : mergeNode g p = g := by
  simp [mergeNode, h]

/-- After a `MERGE`, a matching node exists. -/
lemma any_matches_mergeNode (g : GraphState) (p : NodePat)
    (hk : (p.props.map Prod.fst).Nodup) :
    (mergeNode g p).nodes.any (fun n => nodeMatches n p) = true := by
  by_cases h : g.nodes.any (fun n => nodeMatches n p) = true
  · rw [mergeNode_of_any g p h]; exact h
  · rw [mergeNode, if_neg h]
    simp only [createNode, List.any_append, Bool.or_eq_true]
    exact Or.inr (by simp [nodeMatches_create p hk])

/-- An edge `MERGE` with a matching edge present changes nothing. -/
lemma mergeEdge_of_any (g : GraphState) (a : Nat) (t : String) (b : Nat)
    (h : g.edges.any (fun e => edgeMatches e a t b) = true) : mergeEdge g a t b = g := by
  simp [mergeEdge, h]

/-- After an edge `MERGE`, a matching edge exists. -/
lemma any_matches_mergeEdge (g : GraphState) (a : Nat) (t : String) (b : Nat) :
    (mergeEdge g a t b).edges.any (fun e => edgeMatches e a t b) = true := by
  by_cases h : g.edges.any (fun e => edgeMatches e a t b) = true
  · rw [mergeEdge_of_any g a t b h]; exact h
  · rw [mergeEdge, if_neg h]
    simp only [createEdge, List.any_append, Bool.or_eq_true]
    exact Or.inr (by simp [edgeMatches_create])

/-! ## Claim theorems -/

/-- Claim C3: `MERGE` is idempotent — with a unique-keyed pattern property
map, running the same node `MERGE` (or relationship `MERGE` between the
same endpoints) a second time changes nothing, and starting from a graph
with no matching node/edge, two identical `MERGE` executions leave exactly
one matching node/edge. -/
theorem merge_idempotent (g : GraphState) (pat : NodePat) (a : Nat) (t : String) (b : Nat)
    (hkeys : (pat.props.map Prod.fst).Nodup) :
    mergeNode (mergeNode g pat) pat = mergeNode g pat ∧
    (g.nodes.countP (fun n => nodeMatches n pat) = 0 →
      (mergeNode (mergeNode g pat) pat).nodes.countP (fun n => nodeMatches n pat) = 1) ∧
    mergeEdge (mergeEdge g a t b) a t b = mergeEdge g a t b ∧
    (g.edges.countP (fun e => edgeMatches e a t b) = 0 →
      (mergeEdge (mergeEdge g a t b) a t b).edges.countP (fun e => edgeMatches e a t b) = 1) := by
  have hn1 : mergeNode (mergeNode g pat) pat = mergeNode g pat :=
    mergeNode_of_any _ _ (any_matches_mergeNode g pat hkeys)
  have he1 : mergeEdge (mergeEdge g a t b) a t b = mergeEdge g a t b :=
    mergeEdge_of_any _ _ _ _ (any_matches_mergeEdge g a t b)
  refine ⟨hn1, ?_, he1, ?_⟩
  · intro h0
    have hnone : g.nodes.any (fun n => nodeMatches n pat) = false := by
      rcases List.countP_eq_zero.mp h0 with _
      simp only [List.any_eq_false]
      intro n hn
      exact List.countP_eq_zero.mp h0 n hn
    rw [hn1]
    simp only [mergeNode, hnone, Bool.false_eq_true, if_false]
    simp [createNode, List.countP_append, h0, List.countP_cons,
      nodeMatches_create pat hkeys]
  · intro h0
    have hnone : g.edges.any (fun e => edgeMatches e a t b) = false := by
      simp only [List.any_eq_false]
      intro e he
      exact List.countP_eq_zero.mp h0 e he
    rw [he1]
    simp only [mergeEdge, hnone, Bool.false_eq_true, if_false]
    simp [createEdge, List.countP_append, h0, List.countP_cons, edgeMatches_create]

/-- Witness for C3 at the concrete `MERGE (n:M {key: x})` pattern and the
concrete `(1)-[:LINK]->(2)` edge on the empty store. -/
theorem merge_idempotent_witness :
    mergeNode (mergeNode initialState (NodePat.mk ["M"] [("key", Value.str "x")]))
        (NodePat.mk ["M"] [("key", Value.str "x")])
      = mergeNode initialState (NodePat.mk ["M"] [("key", Value.str "x")]) ∧
    (initialState.nodes.countP
        (fun n => nodeMatches n (NodePat.mk ["M"] [("key", Value.str "x")])) = 0 →
      (mergeNode (mergeNode initialState (NodePat.mk ["M"] [("key", Value.str "x")]))
          (NodePat.mk ["M"] [("key", Value.str "x")])).nodes.countP
        (fun n => nodeMatches n (NodePat.mk ["M"] [("key", Value.str "x")])) = 1) ∧
    mergeEdge (mergeEdge initialState 1 "LINK" 2) 1 "LINK" 2
      = mergeEdge initialState 1 "LINK" 2 ∧
    (initialState.edges.countP (fun e => edgeMatches e 1 "LINK" 2) = 0 →
      (mergeEdge (mergeEdge initialState 1 "LINK" 2) 1 "LINK" 2).edges.countP
        (fun e => edgeMatches e 1 "LINK" 2) = 1) :=
  merge_idempotent initialState (NodePat.mk ["M"] [("key", Value.str "x")]) 1 "LINK" 2
    (by decide)

/-- Claim C1: once a write transaction has reached a terminal state (after
`rollback()` or `commit()`), any further operation on it — a staged write
statement, `set_vector`, a second `commit` or `rollback` — fails with the
"already finished" condition; and in the rollback-then-commit scenario the
commit fails with "already finished" while the database keeps its state,
so the staged create is absent from the database. -/
theorem txn_terminal_finality (db db0 : DB) (t : WriteTxn) (w w0 : WriteOp)
    (nid : Nat) (v : List ℚ)
    (hterm : t.status ≠ .active) (h0 : db0.closed = false) :
    t.query w = .error txnFinished ∧
    t.set_vector nid v = .error txnFinished ∧
    t.commit db = .error txnFinished ∧
    t.rollback db = .error txnFinished ∧
    (∃ t0 t1 d2 t2,
      db0.begin_write = .ok t0 ∧
      t0.query w0 = .ok t1 ∧
      t1.rollback db0 = .ok (d2, t2) ∧
      t2.commit db0 = .error txnFinished ∧
      d2 = db0) := by
  refine ⟨?_, ?_, ?_, ?_, ?_⟩
  · simp [WriteTxn.query, hterm]
  · simp [WriteTxn.set_vector, hterm]
  · simp [WriteTxn.commit, hterm]
  · simp [WriteTxn.rollback, hterm]
  · refine ⟨{ status := .active, staged := db0.state },
      { status := .active, staged := applyWrite db0.state w0 },
      db0, { status := .rolledBack, staged := applyWrite db0.state w0 },
      ?_, ?_, ?_, ?_, rfl⟩
    · simp [DB.begin_write, h0]
    · simp [WriteTxn.query]
    · simp [WriteTxn.rollback]
    · simp [WriteTxn.commit]

/-- Witness for C1 at a concrete rolled-back transaction and a concrete
open database. -/
theorem txn_terminal_finality_witness :
    WriteTxn.query { status := .rolledBack, staged := initialState }
        (.createNode ["TX"] []) = .error txnFinished ∧
    WriteTxn.set_vector { status := .rolledBack, staged := initialState } 7 [] =
        .error txnFinished ∧
    WriteTxn.commit { status := .rolledBack, staged := initialState }
        { state := initialState, closed := false } = .error txnFinished ∧
    WriteTxn.rollback { status := .rolledBack, staged := initialState }
        { state := initialState, closed := false } = .error txnFinished ∧
    (∃ t0 t1 d2 t2,
      DB.begin_write { state := initialState, closed := false } = .ok t0 ∧
      t0.query (.createNode ["TX"] [("v", Value.int 99)]) = .ok t1 ∧
      t1.rollback { state := initialState, closed := false } = .ok (d2, t2) ∧
      t2.commit { state := initialState, closed := false } = .error txnFinished ∧
      d2 = { state := initialState, closed := false }) :=
  txn_terminal_finality { state := initialState, closed := false }
    { state := initialState, closed := false }
    { status := .rolledBack, staged := initialState }
    (.createNode ["TX"] []) (.createNode ["TX"] [("v", Value.int 99)]) 7 []
    (by decide) rfl

/-- Claim C2: after any sequence of committed writes, a read with no
intervening write observes exactly the cumulative effect of those writes,
also across a close/reopen round trip — the reopened handle is the same
open handle, so graph queries and vector searches agree before and after. -/
theorem durability_close_reopen (ws : List WriteOp) (p : NodePat) (q : List ℚ) (k : Nat)
    (db : DB) (hdb : db = { state := applyWrites ws initialState, closed := false }) :
    db.close.reopen = db ∧
    db.close.reopen.query p = db.query p ∧
    db.close.reopen.search_vector q k = db.search_vector q k ∧
    db.close.reopen.state = applyWrites ws initialState := by
  subst hdb
  exact ⟨rfl, rfl, rfl, rfl⟩

/-- Witness for C2 at a concrete write sequence. -/
theorem durability_close_reopen_witness :
    (DB.mk (applyWrites [.createNode ["Persist"] [("key", Value.str "survives")]]
        initialState) false).close.reopen
      = DB.mk (applyWrites [.createNode ["Persist"] [("key", Value.str "survives")]]
          initialState) false ∧
    (DB.mk (applyWrites [.createNode ["Persist"] [("key", Value.str "survives")]]
        initialState) false).close.reopen.query (NodePat.mk ["Persist"] [])
      = (DB.mk (applyWrites [.createNode ["Persist"] [("key", Value.str "survives")]]
          initialState) false).query (NodePat.mk ["Persist"] []) ∧
    (DB.mk (applyWrites [.createNode ["Persist"] [("key", Value.str "survives")]]
        initialState) false).close.reopen.search_vector [] 1
      = (DB.mk (applyWrites [.createNode ["Persist"] [("key", Value.str "survives")]]
          initialState) false).search_vector [] 1 ∧
    (DB.mk (applyWrites [.createNode ["Persist"] [("key", Value.str "survives")]]
        initialState) false).close.reopen.state
      = applyWrites [.createNode ["Persist"] [("key", Value.str "survives")]] initialState :=
  durability_close_reopen [.createNode ["Persist"] [("key", Value.str "survives")]]
    (NodePat.mk ["Persist"] []) [] 1 _ rfl

/-- Claim C5: every operation on a closed database handle — read query,
write, vector search, beginning a transaction — fails with a
storage-category error, while a second `close()` is a no-op (it returns the
same closed handle and, being total, cannot raise). -/
theorem closed_db_semantics (db : DB) (p : NodePat) (w : WriteOp) (q : List ℚ) (k : Nat) :
    (db.close).query p = .error (.storageError "database is closed") ∧
    (db.close).execute_write w = .error (.storageError "database is closed") ∧
    (db.close).search_vector q k = .error (.storageError "database is closed") ∧
    (db.close).begin_write = .error (.storageError "database is closed") ∧
    (db.close).close = db.close := by
  refine ⟨?_, ?_, ?_, ?_, rfl⟩ <;>
    simp [DB.close, DB.query, DB.execute_write, DB.search_vector, DB.begin_write, dbClosed]

/-- Claim C6: arithmetic and comparison on `Null` propagate `Null` and
never produce an error: `null + v` and `v + null` evaluate to `null` for
every value `v`, `null = v`, `v = null` and in particular `null = null`
evaluate to `null` (three-valued logic), and the same holds in every
expression context in which the null operand appears. -/
theorem null_propagation (v w : Value) (e1 e2 : Expr)
    (h1 : evalExpr e1 = .ok .null) (h2 : evalExpr e2 = .ok w) :
    addValues .null v = .ok .null ∧
    addValues v .null = .ok .null ∧
    eqValues .null v = .null ∧
    eqValues v .null = .null ∧
    eqValues .null .null = .null ∧
    evalExpr (.add e1 e2) = .ok .null ∧
    evalExpr (.add e2 e1) = .ok .null ∧
    evalExpr (.eq e1 e2) = .ok .null ∧
    evalExpr (.eq e2 e1) = .ok .null := by
  have hadd : ∀ u : Value, addValues .null u = .ok .null ∧ addValues u .null = .ok .null := by
    intro u; cases u <;> simp [addValues]
  have heq : ∀ u : Value, eqValues .null u = .null ∧ eqValues u .null = .null := by
    intro u; cases u <;> simp [eqValues]
  have hbindA : ∀ a b : Expr, evalExpr (.add a b) =
      Except.bind (evalExpr a) (fun x => Except.bind (evalExpr b)
        (fun y => addValues x y)) := fun _ _ => rfl
  have hbindE : ∀ a b : Expr, evalExpr (.eq a b) =
      Except.bind (evalExpr a) (fun x => Except.bind (evalExpr b)
        (fun y => Except.ok (eqValues x y))) := fun _ _ => rfl
  refine ⟨(hadd v).1, (hadd v).2, (heq v).1, (heq v).2, rfl, ?_, ?_, ?_, ?_⟩
  · rw [hbindA, h1, h2]; simpa [Except.bind] using (hadd w).1
  · rw [hbindA, h1, h2]; simpa [Except.bind] using (hadd w).2
  · rw [hbindE, h1, h2]; simp [Except.bind, (heq w).1]
  · rw [hbindE, h1, h2]; simp [Except.bind, (heq w).2]

/-- Witness for C6 at concrete operand values and expressions. -/
theorem null_propagation_witness :
    addValues .null (.int 1) = .ok .null ∧
    addValues (.int 1) .null = .ok .null ∧
    eqValues .null (.int 1) = .null ∧
    eqValues (.int 1) .null = .null ∧
    eqValues .null .null = .null ∧
    evalExpr (.add (.lit .null) (.lit (.int 1))) = .ok .null ∧
    evalExpr (.add (.lit (.int 1)) (.lit .null)) = .ok .null ∧
    evalExpr (.eq (.lit .null) (.lit (.int 1))) = .ok .null ∧
    evalExpr (.eq (.lit (.int 1)) (.lit .null)) = .ok .null :=
  null_propagation (.int 1) (.int 1) (.lit .null) (.lit (.int 1)) rfl rfl

/-- Claim C8: `UNION` deduplicates the concatenation of both sides' rows by
structural equality across all projected columns — the result has no
duplicate rows and contains exactly the rows of either side — while
`UNION ALL` keeps duplicates; two single-row sides with identical tuples
give exactly one `UNION` row and exactly two `UNION ALL` rows. -/
theorem union_dedup_semantics (a b : List Row) (r : Row) :
    (unionRows a b).Nodup ∧
    (∀ x : Row, x ∈ unionRows a b ↔ (x ∈ a ∨ x ∈ b)) ∧
    (unionAllRows a b).length = a.length + b.length ∧
    unionRows [r] [r] = [r] ∧
    unionAllRows [r] [r] = [r, r] := by
  refine ⟨List.nodup_dedup _, fun x => ?_, by simp [unionAllRows], ?_, rfl⟩
  · simp [unionRows, List.mem_dedup]
  · simp [unionRows, List.dedup_cons_of_mem]

/-- Inserting a key into a dict makes that key present. -/
lemma keys_dictInsert_self (d : List (String × PyVal)) (k : String) (v : PyVal) :
    k ∈ (dictInsert d k v).map Prod.fst := by
  induction d with
  | nil => simp [dictInsert]
  | cons kv rest ih =>
      obtain ⟨k0, v0⟩ := kv
      by_cases h : k0 = k
      · simp [dictInsert, h]
      · simp only [dictInsert, h, if_false, List.map_cons, List.mem_cons]
        exact Or.inr ih

/-- Inserting into a dict keeps every key that was already present. -/
lemma keys_dictInsert_mono (d : List (String × PyVal)) (k k' : String) (v : PyVal)
    (h : k' ∈ d.map Prod.fst) : k' ∈ (dictInsert d k v).map Prod.fst := by
  induction d with
  | nil => simp at h
  | cons kv rest ih =>
      obtain ⟨k0, v0⟩ := kv
      by_cases hk : k0 = k
      · subst hk
        simpa [dictInsert] using h
      · simp only [List.map_cons, List.mem_cons] at h
        simp only [dictInsert, hk, if_false, List.map_cons, List.mem_cons]
        rcases h with h | h
        · exact Or.inl h
        · exact Or.inr (ih h)

/-- A key present in a dict looks up to something. -/
lemma lookup_isSome_of_mem_keys (d : List (String × PyVal)) (k : String)
    (h : k ∈ d.map Prod.fst) : (d.lookup k).isSome = true := by
  induction d with
  | nil => simp at h
  | cons kv rest ih =>
      obtain ⟨k0, v0⟩ := kv
      by_cases hk : k = k0
      · simp [List.lookup, hk]
      · have hbeq : (k == k0) = false := beq_eq_false_iff_ne.mpr hk
        simp only [List.map_cons, List.mem_cons] at h
        rcases h with h | h
        · exact absurd h hk
        · simp [List.lookup, hbeq, ih h]

/-- Walking the materialization loop over any index list establishes (and
keeps) each processed column's key in the row dict. -/
lemma key_mem_row_foldl (stmt : Statement) :
    ∀ (idxs : List Nat) (d : List (String × PyVal)) (i : Nat),
      (i ∈ idxs ∨ colName stmt i ∈ d.map Prod.fst) →
      colName stmt i ∈
        ((idxs.foldl (fun out j => dictInsert out (colName stmt j) (decodeCell stmt j))
          d).map Prod.fst) := by
  intro idxs
  induction idxs with
  | nil =>
      intro d i h
      rcases h with h | h
      · cases h
      · simpa using h
  | cons j rest ih =>
      intro d i h
      simp only [List.foldl_cons]
      rcases h with h | h
      · rcases List.mem_cons.mp h with rfl | hmem
        · exact ih _ i (Or.inr (keys_dictInsert_self d _ _))
        · exact ih _ i (Or.inl hmem)
      · exact ih _ i (Or.inr (keys_dictInsert_mono _ _ _ _ h))

/-- Claim C9: in the legacy binding's `_row_from_statement`, decoding is
total over column types — for every column index below `column_count()`
the produced row dict contains the column's key (its name, or the
synthesized `col<i>` when the column is unnamed or named by the empty
string), and any column whose `ValueType` is outside the six handled
variants (so integer, list and map columns) decodes to `None` instead of
raising. -/
theorem row_decoding_total (stmt : Statement) (i : Nat) (h : i < stmt.column_count) :
    ((row_from_statement stmt).lookup (colName stmt i)).isSome = true ∧
    (stmt.column_type i ∉
        ([.NULL, .TEXT, .FLOAT, .BOOL, .NODE, .RELATIONSHIP] : List ValueType) →
      decodeCell stmt i = .none) := by
  constructor
  · exact lookup_isSome_of_mem_keys _ _
      (key_mem_row_foldl stmt (List.range stmt.column_count) [] i
        (Or.inl (List.mem_range.mpr h)))
  · intro hnot
    cases hty : stmt.column_type i <;> simp [hty] at hnot ⊢ <;> simp [decodeCell, hty]

/-- Witness for C9 at the concrete statement `stmtW`, column 0 (a named
INTEGER column, which the decoder does not handle). -/
theorem row_decoding_total_witness :
    ((row_from_statement stmtW).lookup (colName stmtW 0)).isSome = true ∧
    (stmtW.column_type 0 ∉
        ([.NULL, .TEXT, .FLOAT, .BOOL, .NODE, .RELATIONSHIP] : List ValueType) →
      decodeCell stmtW 0 = .none) :=
  row_decoding_total stmtW 0 (by decide)

/-- Reading the key back off the row built for that key recovers the key:
`outRow` writes each key component into its plain-expression cell. -/
lemma rowKey_outRow_keyOf (items : List ProjItem) (r : Env) :
    ∀ grp, rowKey items (outRow items (keyOf items r) grp) = keyOf items r := by
  induction items with
  | nil => intro grp; rfl
  | cons it rest ih =>
      intro grp
      cases it with
      | expr n f => simp [keyOf, outRow, rowKey, ih grp]
      | agg n fn d f => simp [keyOf, outRow, rowKey, ih grp]

/-- In a duplicate-free list, exactly one element equals any given member. -/
lemma countP_eq_one_of_nodup_mem {α : Type} [DecidableEq α] :
    ∀ (l : List α) (a : α), l.Nodup → a ∈ l →
      l.countP (fun x => decide (x = a)) = 1 := by
  intro l
  induction l with
  | nil => intro a _ ha; cases ha
  | cons b t ih =>
      intro a hn ha
      rw [List.countP_cons]
      rcases List.mem_cons.mp ha with heq | hat
      · subst heq
        have hb : a ∉ t := (List.nodup_cons.mp hn).1
        have h0 : t.countP (fun x => decide (x = a)) = 0 :=
          List.countP_eq_zero.mpr (fun x hx hxb => by
            rw [decide_eq_true_eq] at hxb
            exact hb (hxb ▸ hx))
        simp [h0]
      · have hba : ¬(b = a) := by
          rintro rfl
          exact (List.nodup_cons.mp hn).1 hat
        simp [ih a (List.nodup_cons.mp hn).2 hat, hba]

/-- Claim C7: a projection list mixing aggregates with plain expressions
groups implicitly by the tuple of all plain expressions' values: the
output has pairwise-distinct group keys, exactly one output row for the
key of every input row (and no output row with any other key), and each
output row is built — every aggregate computed — from exactly the input
rows whose key is that output row's key. -/
theorem implicit_group_by (items : List ProjItem) (rows : List Env) :
    ((groupProject items rows).map (rowKey items)).Nodup ∧
    (∀ r ∈ rows,
      ((groupProject items rows).map (rowKey items)).countP
        (fun k => decide (k = keyOf items r)) = 1) ∧
    (∀ o ∈ groupProject items rows, ∃ r ∈ rows, rowKey items o = keyOf items r) ∧
    (∀ o ∈ groupProject items rows,
      o = outRow items (rowKey items o)
        (rows.filter (fun r => decide (keyOf items r = rowKey items o)))) := by
  have hkeys : ∀ k ∈ (rows.map (keyOf items)).dedup,
      rowKey items (outRow items k
        (rows.filter (fun r => decide (keyOf items r = k)))) = k := by
    intro k hk
    obtain ⟨r, _, rfl⟩ := List.mem_map.mp (List.mem_dedup.mp hk)
    exact rowKey_outRow_keyOf items r _
  have hmap : (groupProject items rows).map (rowKey items)
      = (rows.map (keyOf items)).dedup := by
    unfold groupProject
    rw [List.map_map]
    exact (List.map_congr_left hkeys).trans (List.map_id _)
  refine ⟨?_, ?_, ?_, ?_⟩
  · rw [hmap]; exact List.nodup_dedup _
  · intro r hr
    rw [hmap]
    exact countP_eq_one_of_nodup_mem _ _ (List.nodup_dedup _)
      (List.mem_dedup.mpr (List.mem_map_of_mem (keyOf items) hr))
  · intro o ho
    obtain ⟨k, hk, rfl⟩ := List.mem_map.mp ho
    obtain ⟨r, hr, rfl⟩ := List.mem_map.mp (List.mem_dedup.mp hk)
    exact ⟨r, hr, rowKey_outRow_keyOf items r _⟩
  · intro o ho
    obtain ⟨k, hk, rfl⟩ := List.mem_map.mp ho
    rw [hkeys k hk]

/-- Claim C4: `search_vector(q, k)` on an open database succeeds and
returns `(NodeId, distance)` pairs sorted by non-decreasing Euclidean
distance from `q` (distances are reported squared, and their square roots
— the Euclidean distances — are sorted as well); every returned distance
is exactly the distance between `q` and that node's stored vector; the
result has `min k n` entries, so a `k` larger than the number `n` of
stored vectors returns all of them without error and otherwise at most
`k` are returned. -/
theorem search_vector_spec (db : DB) (q : List ℚ) (k : Nat) (h : db.closed = false) :
    ∃ rs : List (Nat × ℚ),
      db.search_vector q k = .ok rs ∧
      rs.length = min k db.state.vectors.length ∧
      List.Pairwise (fun a b : Nat × ℚ => a.2 ≤ b.2) rs ∧
      List.Pairwise (fun a b : Nat × ℚ =>
        Real.sqrt ((a.2 : ℚ) : ℝ) ≤ Real.sqrt ((b.2 : ℚ) : ℝ)) rs ∧
      (∀ pr ∈ rs, ∃ v, (pr.1, v) ∈ db.state.vectors ∧ pr.2 = sqDist q v) := by
  have hsorted : List.Pairwise (fun a b : Nat × ℚ => a.2 ≤ b.2)
      (knnSearch db.state.vectors q k) := by
    have hs := List.sorted_insertionSort distLE
      (db.state.vectors.map (fun p => (p.1, sqDist q p.2)))
    have ht : List.Pairwise distLE (knnSearch db.state.vectors q k) :=
      List.Pairwise.sublist (List.take_sublist _ _) hs
    exact ht.imp (fun hab => hab)
  refine ⟨knnSearch db.state.vectors q k, ?_, ?_, hsorted, ?_, ?_⟩
  · simp [DB.search_vector, h]
  · simp [knnSearch]
  · refine hsorted.imp (fun hab => ?_)
    exact Real.sqrt_le_sqrt (by exact_mod_cast hab)
  · intro pr hpr
    have h1 : pr ∈ (db.state.vectors.map
        (fun p => (p.1, sqDist q p.2))).insertionSort distLE :=
      List.take_subset _ _ hpr
    have h2 : pr ∈ db.state.vectors.map (fun p => (p.1, sqDist q p.2)) :=
      ((List.perm_insertionSort distLE _).mem_iff).mp h1
    obtain ⟨p0, hp0, heq⟩ := List.mem_map.mp h2
    cases heq
    exact ⟨p0.2, by simpa using hp0, rfl⟩

/-- Witness for C4: the spec's three-vector scenario with query `[1,0,0]`
and `k = 3`. -/
theorem search_vector_spec_witness :
    ∃ rs : List (Nat × ℚ),
      dbVec.search_vector [1, 0, 0] 3 = .ok rs ∧
      rs.length = min 3 dbVec.state.vectors.length ∧
      List.Pairwise (fun a b : Nat × ℚ => a.2 ≤ b.2) rs ∧
      List.Pairwise (fun a b : Nat × ℚ =>
        Real.sqrt ((a.2 : ℚ) : ℝ) ≤ Real.sqrt ((b.2 : ℚ) : ℝ)) rs ∧
      (∀ pr ∈ rs, ∃ v, (pr.1, v) ∈ dbVec.state.vectors ∧ pr.2 = sqDist [1, 0, 0] v) :=
  search_vector_spec dbVec [1, 0, 0] 3 rfl

/-- An exhausted iterator answers StopIteration and is left untouched. -/
lemma next_of_done (it : StatementRows) (h : it.done = true) :
    it.next = (Option.none, it) := by
  simp [StatementRows.next, h]

/-- Iterating an exhausted iterator any number of times leaves it fixed. -/
lemma iterNext_of_done (it : StatementRows) (h : it.done = true) :
    ∀ n, iterNext it n = it := by
  intro n
  induction n with
  | zero => rfl
  | succ m ih =>
      rw [iterNext, next_of_done it h]
      exact ih

/-- Claim C10: the legacy `StatementRows` iterator stays exhausted once
exhausted — the first time `step()` returns false (no pending row) it
calls `finalize()` exactly once, counts exactly that one extra `step()`,
marks itself done and raises StopIteration; from then on every `__next__`
raises StopIteration leaving the iterator (both call counters included)
untouched, so neither `step()` nor `finalize()` is invoked again. -/
theorem rows_exhausted_stays_exhausted (it itf : StatementRows) (n : Nat)
    (hdone : it.done = true) (h0 : itf.done = false) (hp : itf.stmt.pending = []) :
    it.next = (Option.none, it) ∧
    iterNext it n = it ∧
    (iterNext it n).next.1 = Option.none ∧
    itf.next.1 = Option.none ∧
    (itf.next.2).done = true ∧
    (itf.next.2).stmt.finalizeCalls = itf.stmt.finalizeCalls + 1 ∧
    (itf.next.2).stmt.stepCalls = itf.stmt.stepCalls + 1 ∧
    (∀ m, iterNext (itf.next.2) m = itf.next.2) := by
  obtain ⟨⟨pend, s, f⟩, d⟩ := itf
  simp only at h0 hp
  subst h0
  subst hp
  have hstep : StatementRows.next ⟨⟨[], s, f⟩, false⟩ =
      (Option.none, ⟨⟨[], s + 1, f + 1⟩, true⟩) := by
    simp [StatementRows.next, Stmt.step, Stmt.finalize]
  refine ⟨next_of_done it hdone, iterNext_of_done it hdone n, ?_, ?_, ?_, ?_, ?_, ?_⟩
  · rw [iterNext_of_done it hdone n, next_of_done it hdone]
  · rw [hstep]
  · rw [hstep]
  · rw [hstep]
  · rw [hstep]
  · intro m
    rw [hstep]
    exact iterNext_of_done _ rfl m

/-- Witness for C10 at the concrete iterators `itDone` and `itEmpty`. -/
theorem rows_exhausted_stays_exhausted_witness :
    itDone.next = (Option.none, itDone) ∧
    iterNext itDone 5 = itDone ∧
    (iterNext itDone 5).next.1 = Option.none ∧
    itEmpty.next.1 = Option.none ∧
    (itEmpty.next.2).done = true ∧
    (itEmpty.next.2).stmt.finalizeCalls = itEmpty.stmt.finalizeCalls + 1 ∧
    (itEmpty.next.2).stmt.stepCalls = itEmpty.stmt.stepCalls + 1 ∧
    (∀ m, iterNext (itEmpty.next.2) m = itEmpty.next.2) :=
  rows_exhausted_stays_exhausted itDone itEmpty 5 rfl rfl rfl

end NervusDB
